import Mathlib

/-!
Verification development for the wiki-utils repository.

Shallow embedding of the core components:
* `src/url.rs` — the percent and underscore decoding state machine (`Decoder`,
  `decode_url_str`), modelled at the byte level so that Rust's byte-indexed
  `str` slicing (which panics off a character boundary) is represented
  faithfully: a result of `none` models a Rust panic, `some (.error e)` a
  returned `DecodeError`, and `some (.ok s)` a successful decode.
* `src/client.rs` — the retry/backoff loop of `AsyncClient::get_request`
  and the `CONNECTION_PERMITS` semaphore.
* `src/links.rs` — `LinkCalculator` with its layer sequence, redirect map,
  per-endpoint work units and the round structure of `compute_next_async`.

Strings are kept as Lean `String`s (Rust `String` equality is exact string
equality); rendered output is modelled as a `List Char` stream.
-/

namespace WikiUtils

/-! ## url.rs — the decoder -/

/-- The four variants of `DecodeError` in `src/url.rs`. -/
inductive DecodeError where
  | OddLengthHexString
  | HexNotValidByte
  | ByteVecNotUtf8
  | IncompleteParse
deriving DecidableEq

/-- UTF-8 encoding of one unicode scalar value, as the list of its bytes.
Mirrors how Rust stores a `char` pushed onto the `String` `parse_buffer`. -/
def utf8Bytes (c : Char) : List Nat :=
  let n := c.toNat
  if n < 0x80 then [n]
  else if n < 0x800 then [0xC0 + n / 64, 0x80 + n % 64]
  else if n < 0x10000 then
    [0xE0 + n / 4096, 0x80 + (n / 64) % 64, 0x80 + n % 64]
  else
    [0xF0 + n / 262144, 0x80 + (n / 4096) % 64, 0x80 + (n / 64) % 64, 0x80 + n % 64]

/-- Byte length of the `parse_buffer` (Rust's `String::len`). -/
def byteLen (cs : List Char) : Nat := (cs.map (fun c => (utf8Bytes c).length)).sum

/-- Value of an ASCII hexadecimal digit byte, as `char::to_digit(16)` sees it. -/
def hexDigitVal (b : Nat) : Option Nat :=
  if 48 ≤ b ∧ b ≤ 57 then some (b - 48)
  else if 97 ≤ b ∧ b ≤ 102 then some (b - 87)
  else if 65 ≤ b ∧ b ≤ 70 then some (b - 55)
  else none

/-- Model of `u8::from_str_radix(slice, 16)` on a two-byte slice: an optional
leading plus sign is accepted (a minus sign is rejected for unsigned types),
every remaining byte must be a hexadecimal digit.  Two hex digits cannot
overflow a `u8`. -/
def parseHexPair (b0 b1 : Nat) : Except DecodeError Nat :=
  if b0 = 43 then
    match hexDigitVal b1 with
    | some v => .ok v
    | none => .error .HexNotValidByte
  else
    match hexDigitVal b0, hexDigitVal b1 with
    | some v0, some v1 => .ok (16 * v0 + v1)
    | _, _ => .error .HexNotValidByte

/-- The per-iteration body of the Rust loop, over the buffer's byte stream:
each iteration first takes the two-byte slice `&hex_code[i..(i+2)]` — which
panics (modelled by `none`) when the slice's end does not fall on a
character boundary (`marks` holds `true` exactly at character-start
positions) — and then parses it with `from_str_radix`, whose error the `?`
returns at once (`some (.error e)`), before the next iteration slices
further. -/
def parse_hex_pairs : List Nat → List Bool → Option (Except DecodeError (List Nat))
  | [], _ => some (.ok [])
  | b0 :: b1 :: rest, _ :: _ :: marksRest =>
    let okBoundary : Bool :=
      match rest, marksRest with
      | [], _ => true
      | _ :: _, m :: _ => m
      | _ :: _, [] => false
    if okBoundary then
      match parseHexPair b0 b1 with
      | .error e => some (.error e)
      | .ok b =>
        match parse_hex_pairs rest marksRest with
        | none => none
        | some (.error e) => some (.error e)
        | some (.ok bs) => some (.ok (b :: bs))
    else none
  | _, _ => none

/-- Strict UTF-8 validation and decoding of a byte sequence, mirroring
`String::from_utf8`: rejects overlong encodings, surrogates and values above
`0x10FFFF`.  Returns `none` on invalid input. -/
def utf8Decode : List Nat → Option (List Char)
  | [] => some []
  | b0 :: bs =>
    if b0 < 0x80 then
      (utf8Decode bs).map (fun cs => Char.ofNat b0 :: cs)
    else if b0 < 0xC2 then none
    else if b0 < 0xE0 then
      match bs with
      | b1 :: bs' =>
        if 0x80 ≤ b1 ∧ b1 < 0xC0 then
          (utf8Decode bs').map (fun cs => Char.ofNat ((b0 - 0xC0) * 64 + (b1 - 0x80)) :: cs)
        else none
      | [] => none
    else if b0 < 0xF0 then
      match bs with
      | b1 :: b2 :: bs' =>
        let lo1 := if b0 = 0xE0 then 0xA0 else 0x80
        let hi1 := if b0 = 0xED then 0xA0 else 0xC0
        if (lo1 ≤ b1 ∧ b1 < hi1) ∧ (0x80 ≤ b2 ∧ b2 < 0xC0) then
          (utf8Decode bs').map (fun cs =>
            Char.ofNat ((b0 - 0xE0) * 4096 + (b1 - 0x80) * 64 + (b2 - 0x80)) :: cs)
        else none
      | _ => none
    else if b0 < 0xF5 then
      match bs with
      | b1 :: b2 :: b3 :: bs' =>
        let lo1 := if b0 = 0xF0 then 0x90 else 0x80
        let hi1 := if b0 = 0xF4 then 0x90 else 0xC0
        if (lo1 ≤ b1 ∧ b1 < hi1) ∧ (0x80 ≤ b2 ∧ b2 < 0xC0) ∧ (0x80 ≤ b3 ∧ b3 < 0xC0) then
          (utf8Decode bs').map (fun cs =>
            Char.ofNat ((b0 - 0xF0) * 262144 + (b1 - 0x80) * 4096 + (b2 - 0x80) * 64 + (b3 - 0x80)) :: cs)
        else none
      | _ => none
    else none

/-- Model of `Decoder::hex_string_to_unicode`: the accumulated `parse_buffer`
(kept as the chars that were pushed) is viewed as its UTF-8 byte string and
length-checked; the loop then alternates slicing a byte pair (panicking —
`none` — when the slice's end is not a char boundary) with parsing it as a
hex byte, and finally the collected bytes are validated as UTF-8. -/
def hex_string_to_unicode (buf : List Char) : Option (Except DecodeError (List Char)) :=
  let groups := buf.map utf8Bytes
  let bytes := groups.flatten
  if bytes.length % 2 ≠ 0 then some (.error .OddLengthHexString)
  else
    let marks := (groups.map (fun g => true :: List.replicate (g.length - 1) false)).flatten
    match parse_hex_pairs bytes marks with
    | none => none
    | some (.error e) => some (.error e)
    | some (.ok outBytes) =>
      match utf8Decode outBytes with
      | none => some (.error .ByteVecNotUtf8)
      | some cs => some (.ok cs)

/-- The three states of the decoding transducer in `src/url.rs`. -/
inductive DecoderState where
  | Reading
  | Parsing
  | ParseReady
deriving DecidableEq

/-- The `Decoder` struct: output accumulator, hex `parse_buffer`, state. -/
structure Decoder where
  output_buffer : List Char
  parse_buffer : List Char
  state : DecoderState
deriving DecidableEq

def Decoder.new : Decoder := ⟨[], [], .Reading⟩

/-- Model of `Decoder::process_char`.  `none` models a panic inside
`hex_string_to_unicode`; `some (.error e)` a returned error. -/
def Decoder.process_char (d : Decoder) (c : Char) : Option (Except DecodeError Decoder) :=
  match d.state with
  | .Reading =>
    match c with
    | '%' => some (.ok { d with state := .Parsing })
    | '_' => some (.ok { d with output_buffer := d.output_buffer ++ [' '] })
    | _ => some (.ok { d with output_buffer := d.output_buffer ++ [c] })
  | .Parsing =>
    let pb := d.parse_buffer ++ [c]
    some (.ok { d with
      parse_buffer := pb
      state := if byteLen pb % 2 = 0 then .ParseReady else .Parsing })
  | .ParseReady =>
    if c = '%' then some (.ok { d with state := .Parsing })
    else
      match hex_string_to_unicode d.parse_buffer with
      | none => none
      | some (.error e) => some (.error e)
      | some (.ok parsed) =>
        some (.ok ⟨d.output_buffer ++ parsed ++ [c], [], .Reading⟩)

/-- Model of `Decoder::finalize`. -/
def Decoder.finalize (d : Decoder) : Option (Except DecodeError (List Char)) :=
  match d.state with
  | .Reading => some (.ok d.output_buffer)
  | .Parsing => some (.error .IncompleteParse)
  | .ParseReady =>
    match hex_string_to_unicode d.parse_buffer with
    | none => none
    | some (.error e) => some (.error e)
    | some (.ok parsed) => some (.ok (d.output_buffer ++ parsed))

/-- The character-feeding loop of `decode_url_str`. -/
def decodeChars : Decoder → List Char → Option (Except DecodeError (List Char))
  | d, [] => d.finalize
  | d, c :: cs =>
    match d.process_char c with
    | none => none
    | some (.error e) => some (.error e)
    | some (.ok d') => decodeChars d' cs

/-- Model of `decode_url_str` in `src/url.rs`: feed every character of the
input through the decoder, then finalize.  `none` models a panic. -/
def decode_url_str (s : String) : Option (Except DecodeError String) :=
  match decodeChars Decoder.new s.toList with
  | none => none
  | some (.error e) => some (.error e)
  | some (.ok cs) => some (.ok (String.mk cs))

/-! ## client.rs — retry loop and connection semaphore -/

/-- The `ClientError` enumeration of `src/client.rs`.  `RequestError` carries
an abstract identifier distinguishing one transport error from another (the
underlying `reqwest::Error` is opaque); `StatusCodeError` carries the HTTP
status code as a number. -/
inductive ClientError where
  | Default
  | RequestError (id : Nat)
  | StatusCodeError (code : Nat)
  | RedirectError
  | SemaphoreAcquireError
  | PausedOnOtherThread
deriving DecidableEq

/-- Model of `ClientError::status_code`. -/
def ClientError.status_code : ClientError → Option Nat
  | .StatusCodeError c => some c
  | _ => none

/-- A `reqwest::Error` as the `From` conversion sees it: an optional HTTP
status and an abstract identifier distinguishing one error from another. -/
structure ReqwestError where
  status : Option Nat
  id : Nat
deriving DecidableEq

/-- Model of the `From` conversion of a `reqwest::Error` into `ClientError`:
an error carrying a status becomes `StatusCodeError`, any other a
`RequestError`. -/
def ClientError.fromReqwest (e : ReqwestError) : ClientError :=
  match e.status with
  | some code => .StatusCodeError code
  | none => .RequestError e.id

/-- Outcome of one iteration's network step, distinguishing where a failure
arises: `sendErr` is a failure of `send().await` itself (which the `?` at
the call site propagates out of `get_request` at once), while `statusErr`
is a response whose `error_for_status` fails with the given non-2xx status
(which flows into `last_try_result` and the retry logic). -/
inductive ReqOutcome where
  | ok
  | sendErr (e : ReqwestError)
  | statusErr (code : Nat)
deriving DecidableEq

/-- Observable events of one `get_request` execution: a network request being
issued, the shared `paused` flag being stored, and a `RETRY_INTERVAL` sleep. -/
inductive ClientEvent where
  | request
  | setPaused (b : Bool)
  | sleep
deriving DecidableEq

/-- `MAX_RETRIES` in `src/client.rs`. -/
def MAX_RETRIES : Nat := 5

/-- One iteration-by-iteration unfolding of the `loop` in
`AsyncClient::get_request`.  The environment is modelled by two oracles:
`pausedObs i` is the value of the shared `paused` flag this task observes at
the top of iteration `i` (written by concurrently running tasks sharing the
client), and `req i` is the outcome of the network step of iteration `i`,
were one issued then.  A `sendErr` outcome reproduces the `?` on
`send().await`: the converted error returns from the whole function at
once, bypassing `last_try_result`, the 404 check and the backoff.  A
`statusErr` outcome is assigned to `last_try_result`; status 404 breaks
immediately, any other status sets the backoff flag, sleeps, clears it and
retries.  The function returns the surfaced result together with the
ordered event trace. -/
def get_request_go (pausedObs : Nat → Bool) (req : Nat → ReqOutcome) :
    List Nat → Except ClientError Unit → List ClientEvent →
    Except ClientError Unit × List ClientEvent
  | [], last, evs => (last, evs)
  | i :: is, _, evs =>
    if pausedObs i then
      get_request_go pausedObs req is (.error .PausedOnOtherThread) (evs ++ [.sleep])
    else
      match req i with
      | .ok => (.ok (), evs ++ [.request])
      | .sendErr e => (.error (ClientError.fromReqwest e), evs ++ [.request])
      | .statusErr code =>
        if code = 404 then (.error (.StatusCodeError code), evs ++ [.request])
        else
          get_request_go pausedObs req is (.error (.StatusCodeError code))
            (evs ++ [.request, .setPaused true, .sleep, .setPaused false])

/-- Model of `AsyncClient::get_request`: the retry loop started with
`retries = 0` and `last_try_result = Err(ClientError::Default)`; the loop
body runs for `retries` values `0` to `MAX_RETRIES - 1` unless it breaks
or returns earlier. -/
def get_request (pausedObs : Nat → Bool) (req : Nat → ReqOutcome) :
    Except ClientError Unit × List ClientEvent :=
  get_request_go pausedObs req (List.range MAX_RETRIES) (.error .Default) []

/-- `CONNECTION_PERMITS` is created with `Semaphore::const_new(100)`. -/
def CONNECTION_PERMITS : Nat := 100

/-- A step against the connection semaphore: one fetch acquiring its permit
just before `send`, or releasing it just after the response arrives. -/
inductive SemEvent where
  | acquire
  | release
deriving DecidableEq

/-- Executes a trace of semaphore events starting from `avail` available
permits.  An `acquire` can only complete while a permit is available (tokio's
`acquire().await` suspends otherwise), so a completed trace never contains an
acquire at zero availability: such traces are rejected with `none`.  A
`release` returns a held permit, so availability never exceeds the initial
capacity on traces where every release matches an acquire. -/
def sem_exec : Nat → List SemEvent → Option Nat
  | avail, [] => some avail
  | avail, .acquire :: tr => if avail = 0 then none else sem_exec (avail - 1) tr
  | avail, .release :: tr =>
    if avail < CONNECTION_PERMITS then sem_exec (avail + 1) tr else none

/-- Number of fetches whose request is in flight at the end of a trace. -/
def inFlight (tr : List SemEvent) : Nat :=
  tr.countP (fun e => e == SemEvent.acquire) - tr.countP (fun e => e == SemEvent.release)

/-! ## links.rs — the layered link calculator

The flurry `HashSet` layers are modelled as `Finset String`; the flurry
`HashMap` of known redirects as an association list in which an insert
prepends its pair (a later insert for the same key shadows an earlier one,
as the map's insert overwrites).  The unspecified iteration order of the
last layer's hash set — and hence the order in which the round's spawned
work units interleave their effects on the shared structures — is supplied
explicitly as an `order : List String` parameter: each admissible execution
of a round corresponds to running the units atomically in some such order,
each unit seeing every previously completed unit's writes to the shared
redirect map, exactly as the flurry map makes them visible. -/

/-- The `ArticleError` enumeration of `src/article.rs`. -/
inductive ArticleError where
  | MissingBodyParent
  | MissingBody
  | MissingHeading
  | ElementError
deriving DecidableEq

/-- The `LinkCalcError` enumeration of `src/links.rs`. -/
inductive LinkCalcError where
  | ArticleError (e : ArticleError)
  | ClientError (e : ClientError)
  | LockError
  | NotInitializedError
  | JoinError
deriving DecidableEq

deriving instance DecidableEq for Except

/-- An `Article` as the work units consume it: the canonical endpoint the
request resolved to, and the outcome of `create_article_link_set` — either
the outbound links (listed in the set's iteration order) or a parse error. -/
structure Article where
  endpoint : String
  links : Except ArticleError (List String)
deriving DecidableEq

/-- The `LinkCalculator` state: the layer sequence and the redirect map. -/
structure LinkCalculator where
  layers : List (Finset String)
  known_redirects : List (String × String)
deriving DecidableEq

/-- Lookup in the redirect map (`known_redirects.get`). -/
def redirectLookup (krs : List (String × String)) (e : String) : Option String :=
  (krs.find? (fun p => p.1 == e)).map (fun p => p.2)

/-- Insert into the redirect map (`known_redirects.insert`). -/
def redirectInsert (krs : List (String × String)) (k v : String) :
    List (String × String) :=
  (k, v) :: krs

/-- The `real_endpoint` binding of `find_in_previous_layer`: the endpoint
canonicalized through the redirect map — the mapped target when the map
contains the endpoint, the endpoint itself otherwise. -/
def canonical_endpoint (known_redirects : List (String × String))
    (endpoint : String) : String :=
  (redirectLookup known_redirects endpoint).getD endpoint

/-- Model of `LinkCalculator::find_in_previous_layer`: resolve the endpoint
through the redirect map, then return the index of the first committed layer
containing the resolved endpoint. -/
def find_in_previous_layer (previous_layers : List (Finset String))
    (known_redirects : List (String × String)) (endpoint : String) : Option Nat :=
  previous_layers.findIdx?
    (fun layer => canonical_endpoint known_redirects endpoint ∈ layer)

/-- Model of `LinkCalculator::store_article_links`, the body of one spawned
work unit.  Returns the target layer and the shared redirect map as they
stand after the unit (their mutations persist even when the unit fails),
together with the unit's result: the new redirect it discovered, if any, or
its terminal error.  `fetch` abstracts `client.get_article`. -/
def store_article_links (fetch : String → Except ClientError Article)
    (link : String) (this_layer : Finset String)
    (known_redirects : List (String × String))
    (previous_layers : List (Finset String)) :
    Finset String × List (String × String) ×
      Except LinkCalcError (Option (String × String)) :=
  match fetch link with
  | .error e => (this_layer, known_redirects, .error (.ClientError e))
  | .ok article =>
    let krs :=
      if link = article.endpoint then known_redirects
      else redirectInsert known_redirects link article.endpoint
    let new_redirect :=
      if link = article.endpoint then none
      else some (link, article.endpoint)
    match article.links with
    | .error e => (this_layer, krs, .error (.ArticleError e))
    | .ok neighbor_links =>
      let tl := neighbor_links.foldl
        (fun acc neighbor_link =>
          if (find_in_previous_layer previous_layers krs neighbor_link).isNone
          then insert neighbor_link acc else acc)
        this_layer
      (tl, krs, .ok new_redirect)

/-- Runs the round's work units one after another in the scheduled order,
threading the shared target layer and redirect map through them and
collecting each unit's result in spawn order. -/
def run_units (fetch : String → Except ClientError Article)
    (previous_layers : List (Finset String)) :
    List String → Finset String → List (String × String) →
    Finset String × List (String × String) ×
      List (Except LinkCalcError (Option (String × String)))
  | [], tl, krs => (tl, krs, [])
  | link :: rest, tl, krs =>
    let u := store_article_links fetch link tl krs previous_layers
    let r := run_units fetch previous_layers rest u.1 u.2.1
    (r.1, r.2.1, u.2.2 :: r.2.2)

/-- The scan over the joined results in `compute_next_async`: the first
failed unit's error aborts the round, otherwise the discovered redirects are
collected in order (`new_redirects.extend`). -/
def collect_results :
    List (Except LinkCalcError (Option (String × String))) →
    Except LinkCalcError (List (String × String))
  | [] => .ok []
  | .error e :: _ => .error e
  | .ok p :: rest =>
    match collect_results rest with
    | .error e => .error e
    | .ok ps => .ok (match p with | some pr => pr :: ps | none => ps)

/-- Model of `LinkCalculator::normalize_layer`: for each newly discovered
redirect, remove the requested endpoint from the just-processed layer and
insert the canonical one. -/
def normalize_layer (last_layer : Finset String)
    (new_redirects : List (String × String)) : Finset String :=
  new_redirects.foldl (fun layer p => insert p.2 (layer.erase p.1)) last_layer

/-- Model of `LinkCalculator::compute_next_async` under a given work-unit
schedule `order`.  On success the processed layer is normalized in place and
the new layer appended; on any unit failure the error is returned and the
layer sequence left exactly as it was (the shared redirect map keeps the
entries units already wrote). -/
def compute_next_async (fetch : String → Except ClientError Article)
    (order : List String) (s : LinkCalculator) :
    LinkCalculator × Option LinkCalcError :=
  match s.layers.getLast? with
  | none => (s, some .NotInitializedError)
  | some last_layer =>
    let u := run_units fetch s.layers order ∅ s.known_redirects
    match collect_results u.2.2 with
    | .error e => ({ layers := s.layers, known_redirects := u.2.1 }, some e)
    | .ok new_redirects =>
      ({ layers := s.layers.dropLast ++ [normalize_layer last_layer new_redirects, u.1],
         known_redirects := u.2.1 }, none)

/-- Model of `LinkCalculator::compute_layers_async`: `count` sequential
rounds, stopping at the first failing round.  `orders k` schedules round
`k`'s work units. -/
def compute_layers_async (fetch : String → Except ClientError Article)
    (orders : Nat → List String) :
    Nat → LinkCalculator → LinkCalculator × Option LinkCalcError
  | 0, s => (s, none)
  | count + 1, s =>
    match compute_next_async fetch (orders 0) s with
    | (s', some e) => (s', some e)
    | (s', none) => compute_layers_async fetch (fun k => orders (k + 1)) count s'

/-- Model of `LinkCalculator::new`: a single layer holding the start point. -/
def LinkCalculator.new (start_point : String) : LinkCalculator :=
  { layers := [{start_point}], known_redirects := [] }

/-- Model of `LinkCalculator::from_article`: layer zero holds the article's
endpoint, layer one its outbound links. -/
def LinkCalculator.from_article (endpoint : String) (links : List String) :
    LinkCalculator :=
  { layers := [{endpoint}, links.foldl (fun acc l => insert l acc) ∅],
    known_redirects := [] }

/-! ## The round as the spec words it (frozen redirect snapshot)

Used only to compare the source's behaviour against the spec's description
of a round: redirects discovered mid-round are kept pending and the
membership checks of every unit use the redirect table as it stood at round
start; the pending redirects are committed to the table, and the processed
layer normalized, only once all units have completed. -/

/-- Modelled from the spec: one work unit that records a discovered redirect
only as a pending redirect — without writing the shared redirect table — and
performs its membership checks against the frozen round-start table; per
step 4, when the canonicalized endpoint is absent from every committed
layer, it is the canonicalized endpoint that is inserted into the target
layer. -/
def store_article_links_frozen_spec (fetch : String → Except ClientError Article)
    (link : String) (this_layer : Finset String)
    (frozen_redirects : List (String × String))
    (previous_layers : List (Finset String)) :
    Finset String × Except LinkCalcError (Option (String × String)) :=
  match fetch link with
  | .error e => (this_layer, .error (.ClientError e))
  | .ok article =>
    let new_redirect :=
      if link = article.endpoint then none else some (link, article.endpoint)
    match article.links with
    | .error e => (this_layer, .error (.ArticleError e))
    | .ok neighbor_links =>
      let tl := neighbor_links.foldl
        (fun acc neighbor_link =>
          if (find_in_previous_layer previous_layers frozen_redirects neighbor_link).isNone
          then insert (canonical_endpoint frozen_redirects neighbor_link) acc else acc)
        this_layer
      (tl, .ok new_redirect)

/-- Modelled from the spec: the units of a round run against the frozen
redirect snapshot. -/
def run_units_frozen_spec (fetch : String → Except ClientError Article)
    (previous_layers : List (Finset String))
    (frozen_redirects : List (String × String)) :
    List String → Finset String →
    Finset String × List (Except LinkCalcError (Option (String × String)))
  | [], tl => (tl, [])
  | link :: rest, tl =>
    let u := store_article_links_frozen_spec fetch link tl frozen_redirects previous_layers
    let r := run_units_frozen_spec fetch previous_layers frozen_redirects rest u.1
    (r.1, u.2 :: r.2)

/-- Modelled from the spec: a round in which every membership check reads the
round-start redirect table, and the pending redirects are written into the
table only at the commit step after all units completed successfully. -/
def compute_next_frozen_spec (fetch : String → Except ClientError Article)
    (order : List String) (s : LinkCalculator) :
    LinkCalculator × Option LinkCalcError :=
  match s.layers.getLast? with
  | none => (s, some .NotInitializedError)
  | some last_layer =>
    let u := run_units_frozen_spec fetch s.layers s.known_redirects order ∅
    match collect_results u.2 with
    | .error e => (s, some e)
    | .ok new_redirects =>
      ({ layers := s.layers.dropLast ++ [normalize_layer last_layer new_redirects, u.1],
         known_redirects :=
           new_redirects.foldl (fun krs p => redirectInsert krs p.1 p.2) s.known_redirects },
       none)

/-! ## The redirect section of the report (`impl fmt::Display for LinkCalculator`)

The formatter's output is modelled as the stream of characters written to
it.  Only the redirect-table section is needed here: after the layer blocks,
the source writes a header line and then, for every `(link, target)` pair in
the map's iteration order, the line `"\t{link} -> {target}\n"` — without
passing either endpoint through `decode_url_str`. -/

/-- The characters `writeln!` produces for the redirect header. -/
def redirect_header (n : Nat) : List Char :=
  "Known Redirects (".toList ++ (toString n).toList ++ "):\n".toList

/-- The characters one `writeln!` call of the redirect loop produces: a tab,
the raw source endpoint, an arrow, the raw target endpoint, a newline. -/
def redirect_line (p : String × String) : List Char :=
  '\t' :: p.1.toList ++ " -> ".toList ++ p.2.toList ++ ['\n']

/-- Model of the redirect section of `fmt::Display for LinkCalculator`:
the header followed by one raw `link -> target` line per entry, written in
sequence into the formatter. -/
def render_known_redirects (known_redirects : List (String × String)) : List Char :=
  known_redirects.foldl
    (fun acc p => acc ++ redirect_line p)
    (redirect_header known_redirects.length)

/-- Decoding of one endpoint for display, with the local fallback to the raw
string the renderer uses when decoding fails. -/
def decode_display (s : String) : List Char :=
  match decode_url_str s with
  | some (.ok d) => d.toList
  | _ => s.toList

/-- Modelled from the spec: the redirect section as the spec describes it,
each redirect line applying the endpoint decoding to both the source and the
target endpoint before printing. -/
def render_known_redirects_spec (known_redirects : List (String × String)) : List Char :=
  redirect_header known_redirects.length ++
    (known_redirects.map
      (fun p => '\t' :: decode_display p.1 ++ " -> ".toList ++ decode_display p.2 ++ ['\n'])).flatten

/-! ## Concrete environments used in counterexample and witness theorems -/

/-- Remote world for the round-snapshot scenario: article `A` is a redirect
to `Z` (no outbound links), article `B` is served as itself and links to
`A`. -/
def fetchC1 : String → Except ClientError Article := fun l =>
  if l = "A" then .ok ⟨"Z", .ok []⟩
  else if l = "B" then .ok ⟨"B", .ok ["A"]⟩
  else .error .Default

/-- A calculator about to process the layer containing `A` and `B`. -/
def sC1 : LinkCalculator := ⟨[insert "A" {"B"}], []⟩

/-- Remote world for the canonicalization scenario: article `L` is served as
itself and links to `O`. -/
def fetchC3 : String → Except ClientError Article := fun l =>
  if l = "L" then .ok ⟨"L", .ok ["O"]⟩
  else .error .Default

/-- A redirect table already mapping `O` to `T`. -/
def krsC3 : List (String × String) := [("O", "T")]

/-- Previously committed layers containing neither `O` nor `T`. -/
def prevC3 : List (Finset String) := [{"X"}]

/-- Remote world for the disjointness scenario: the origin `O` links to `A`
and `B`; article `A` links to `C`; article `B` is a redirect to `C`, whose
document has no outbound links. -/
def fetchC4 : String → Except ClientError Article := fun l =>
  if l = "O" then .ok ⟨"O", .ok ["A", "B"]⟩
  else if l = "A" then .ok ⟨"A", .ok ["C"]⟩
  else if l = "B" then .ok ⟨"C", .ok []⟩
  else .error .Default

/-- Work-unit schedules for the disjointness scenario: round 0 processes
`O`, round 1 processes `A` then `B` (the violation arises for either order
of round 1). -/
def ordersC4 : Nat → List String := fun k => if k = 0 then ["O"] else ["A", "B"]

/-- Remote world for the layer-count witness: the origin `O` is served as
itself with no outbound links. -/
def fetchW : String → Except ClientError Article := fun l =>
  if l = "O" then .ok ⟨"O", .ok []⟩
  else .error .Default

/-- Schedule for the layer-count witness. -/
def ordersW : Nat → List String := fun _ => ["O"]

/-- A backoff flag that is never observed set. -/
def pausedNever : Nat → Bool := fun _ => false

/-- A backoff flag observed set at every check. -/
def pausedAlways : Nat → Bool := fun _ => true

/-- A remote that answers every request with status 404. -/
def req404 : Nat → ReqOutcome := fun _ => .statusErr 404

/-- A remote whose `send` itself fails every time with a status-less
transport error of identifier 7. -/
def reqSendFail : Nat → ReqOutcome := fun _ => .sendErr ⟨none, 7⟩

/-- A remote where attempt `i` responds with the distinct non-2xx status
`500 + i`. -/
def reqStatus : Nat → ReqOutcome := fun i => .statusErr (500 + i)

/-- A redirect table entry whose endpoints contain encoded spaces. -/
def krsC9 : List (String × String) := [("A_B", "C_D")]

/-! ## Helper lemmas -/

/-- Membership in the fold that conditionally inserts list elements into a
`Finset`: an element is in the result iff it was already there or it occurs
in the list and satisfies the condition. -/
theorem mem_foldl_insert_if (p : String → Bool) (x : String) :
    ∀ (links : List String) (acc : Finset String),
    (x ∈ links.foldl (fun a l => if p l then insert l a else a) acc) ↔
      x ∈ acc ∨ (x ∈ links ∧ p x = true) := by
  intro links
  induction links with
  | nil => intro acc; simp
  | cons l rest ih =>
    intro acc
    simp only [List.foldl_cons]
    by_cases h : p l
    · rw [if_pos h, ih]
      simp only [Finset.mem_insert, List.mem_cons]
      constructor
      · rintro ((rfl | hx) | ⟨hr, hp⟩)
        · exact Or.inr ⟨Or.inl rfl, h⟩
        · exact Or.inl hx
        · exact Or.inr ⟨Or.inr hr, hp⟩
      · rintro (hx | ⟨rfl | hr, hp⟩)
        · exact Or.inl (Or.inr hx)
        · exact Or.inl (Or.inl rfl)
        · exact Or.inr ⟨hr, hp⟩
    · rw [if_neg h, ih]
      simp only [List.mem_cons]
      constructor
      · rintro (hx | ⟨hr, hp⟩)
        · exact Or.inl hx
        · exact Or.inr ⟨Or.inr hr, hp⟩
      · rintro (hx | ⟨rfl | hr, hp⟩)
        · exact Or.inl hx
        · exact absurd hp h
        · exact Or.inr ⟨hr, hp⟩

/-- `find_in_previous_layer` returns `none` exactly when the canonicalized
endpoint is absent from every committed layer. -/
theorem find_in_previous_layer_none_iff (prev : List (Finset String))
    (krs : List (String × String)) (e : String) :
    find_in_previous_layer prev krs e = none ↔
      ∀ layer ∈ prev, canonical_endpoint krs e ∉ layer := by
  unfold find_in_previous_layer
  rw [List.findIdx?_eq_none_iff]
  constructor
  · intro h layer hl
    have := h layer hl
    simpa using this
  · intro h layer hl
    simpa using h layer hl

/-- A successful round appends exactly one layer. -/
theorem compute_next_ok_length (fetch : String → Except ClientError Article)
    (order : List String) (s s' : LinkCalculator)
    (h : compute_next_async fetch order s = (s', none)) :
    s'.layers.length = s.layers.length + 1 := by
  unfold compute_next_async at h
  split at h
  · simp at h
  · rename_i last hL
    simp only [] at h
    split at h
    · simp at h
    · rename_i nr hc
      have hne : s.layers ≠ [] := by
        intro he; rw [he] at hL; simp at hL
      have hlen : 1 ≤ s.layers.length := List.length_pos.mpr hne
      have hs' := (Prod.mk.injEq _ _ _ _ ▸ h).1
      rw [← hs']
      simp [List.length_dropLast]
      omega

/-- A failed round leaves the layer sequence untouched. -/
theorem compute_next_err_layers (fetch : String → Except ClientError Article)
    (order : List String) (s s' : LinkCalculator) (e : LinkCalcError)
    (h : compute_next_async fetch order s = (s', some e)) :
    s'.layers = s.layers := by
  unfold compute_next_async at h
  split at h
  · have := (Prod.mk.injEq _ _ _ _ ▸ h).1
    rw [← this]
  · rename_i last hL
    simp only [] at h
    split at h
    · have := (Prod.mk.injEq _ _ _ _ ▸ h).1
      rw [← this]
    · simp at h

/-- `n` successful rounds grow the layer sequence by exactly `n`. -/
theorem compute_layers_ok_length (fetch : String → Except ClientError Article) :
    ∀ (n : Nat) (orders : Nat → List String) (s s' : LinkCalculator),
    compute_layers_async fetch orders n s = (s', none) →
    s'.layers.length = s.layers.length + n := by
  intro n
  induction n with
  | zero =>
    intro orders s s' h
    simp only [compute_layers_async, Prod.mk.injEq] at h
    rw [← h.1]
    omega
  | succ m ih =>
    intro orders s s' h
    simp only [compute_layers_async] at h
    cases hc : compute_next_async fetch (orders 0) s with
    | mk s1 e1 =>
      rw [hc] at h
      cases e1 with
      | some e => simp at h
      | none =>
        simp only at h
        have h1 := compute_next_ok_length fetch (orders 0) s s1 hc
        have h2 := ih (fun k => orders (k + 1)) s1 s' h
        omega

/-- A failed multi-round run stops at some failing round, and its layer
sequence is exactly that of the last fully successful prefix of rounds. -/
theorem compute_layers_err (fetch : String → Except ClientError Article) :
    ∀ (n : Nat) (orders : Nat → List String) (s s' : LinkCalculator) (e : LinkCalcError),
    compute_layers_async fetch orders n s = (s', some e) →
    ∃ k t, k < n ∧ compute_layers_async fetch orders k s = (t, none) ∧
      s'.layers = t.layers := by
  intro n
  induction n with
  | zero =>
    intro orders s s' e h
    simp only [compute_layers_async, Prod.mk.injEq] at h
    exact absurd h.2 (by simp)
  | succ m ih =>
    intro orders s s' e h
    simp only [compute_layers_async] at h
    cases hc : compute_next_async fetch (orders 0) s with
    | mk s1 e1 =>
      rw [hc] at h
      cases e1 with
      | some e2 =>
        simp only [Prod.mk.injEq, Option.some.injEq] at h
        refine ⟨0, s, Nat.succ_pos m, rfl, ?_⟩
        rw [← h.1]
        exact compute_next_err_layers fetch (orders 0) s s1 e2 hc
      | none =>
        simp only at h
        obtain ⟨k, t, hk, hrun, hlay⟩ := ih (fun j => orders (j + 1)) s1 s' e h
        refine ⟨k + 1, t, by omega, ?_, hlay⟩
        simp only [compute_layers_async, hc]
        exact hrun

/-- Counting invariant of the connection semaphore: on any completed trace,
acquires balance with releases against the available permits, and
availability never exceeds the capacity. -/
theorem sem_exec_invariant : ∀ (tr : List SemEvent) (s n : Nat),
    s ≤ CONNECTION_PERMITS → sem_exec s tr = some n →
    n ≤ CONNECTION_PERMITS ∧
    tr.countP (fun e => e == SemEvent.acquire) + n =
      s + tr.countP (fun e => e == SemEvent.release) := by
  intro tr
  induction tr with
  | nil =>
    intro s n hs h
    simp only [sem_exec, Option.some.injEq] at h
    subst h
    simp [hs]
  | cons ev rest ih =>
    intro s n hs h
    cases ev with
    | acquire =>
      have ha1 : (SemEvent.acquire :: rest).countP (fun x => x == SemEvent.acquire) =
          rest.countP (fun x => x == SemEvent.acquire) + 1 := by simp
      have ha2 : (SemEvent.acquire :: rest).countP (fun x => x == SemEvent.release) =
          rest.countP (fun x => x == SemEvent.release) := by simp
      simp only [sem_exec] at h
      by_cases h0 : s = 0
      · simp [h0] at h
      · rw [if_neg h0] at h
        have hi := ih (s - 1) n (by omega) h
        have h2 := hi.2
        rw [ha1, ha2]
        exact ⟨hi.1, by omega⟩
    | release =>
      have ha1 : (SemEvent.release :: rest).countP (fun x => x == SemEvent.acquire) =
          rest.countP (fun x => x == SemEvent.acquire) := by simp
      have ha2 : (SemEvent.release :: rest).countP (fun x => x == SemEvent.release) =
          rest.countP (fun x => x == SemEvent.release) + 1 := by simp
      simp only [sem_exec] at h
      by_cases h0 : s < CONNECTION_PERMITS
      · rw [if_pos h0] at h
        have hi := ih (s + 1) n (by omega) h
        have h2 := hi.2
        rw [ha1, ha2]
        exact ⟨hi.1, by omega⟩
      · rw [if_neg h0] at h
        exact absurd h (by simp)

/-- A semaphore trace decomposes: the whole trace completes iff its prefix
completes and the suffix completes from the resulting availability. -/
theorem sem_exec_append : ∀ (l1 l2 : List SemEvent) (s : Nat),
    sem_exec s (l1 ++ l2) = (sem_exec s l1).bind (fun m => sem_exec m l2) := by
  intro l1
  induction l1 with
  | nil => intro l2 s; simp [sem_exec]
  | cons ev rest ih =>
    intro l2 s
    cases ev with
    | acquire =>
      simp only [List.cons_append, sem_exec, List.append_eq]
      by_cases h0 : s = 0
      · simp [h0]
      · rw [if_neg h0, if_neg h0, ih]
    | release =>
      simp only [List.cons_append, sem_exec, List.append_eq]
      by_cases h0 : s < CONNECTION_PERMITS
      · rw [if_pos h0, if_pos h0, ih]
      · rw [if_neg h0, if_neg h0]; rfl

/-- A left fold that appends a rendered chunk per element equals the initial
chunk followed by the flattened chunks. -/
theorem foldl_append_flatten {α : Type} (f : α → List Char) :
    ∀ (l : List α) (init : List Char),
    l.foldl (fun acc p => acc ++ f p) init = init ++ (l.map f).flatten := by
  intro l
  induction l with
  | nil => intro init; simp
  | cons p rest ih => intro init; simp [ih]

/-! ## Claim theorems -/

/-- Claim C1, counterexample.  The claim states that a redirect discovered
mid-round is recorded only as a pending redirect, not written into the
redirect table until the round's commit, so that every membership check of
the round reads a frozen snapshot.  In the code, `store_article_links`
inserts the redirect into the shared map immediately: with the layer
`⦃A, B⦄` under schedule `[A, B]`, the unit for `A` (a redirect to `Z`)
leaves the shared map holding `(A, Z)` before the round completes, and the
round's outcome differs from the frozen-snapshot round the spec describes —
the unit for `B` resolves its link `A` through the already-written entry,
fails to find `Z` in any layer and admits `A` into the new layer, which the
frozen-snapshot round excludes. -/
theorem c1_redirect_not_frozen_counterexample :
    (store_article_links fetchC1 "A" ∅ [] sC1.layers).2.1 = [("A", "Z")] ∧
    compute_next_async fetchC1 ["A", "B"] sC1 ≠
      compute_next_frozen_spec fetchC1 ["A", "B"] sC1 := by decide

/-- Claim C1, amended.  A redirect discovered by a work unit
(`canonical_endpoint ≠ requested endpoint`) is written into the shared
RedirectTable immediately, before the unit's own membership checks and
before the round completes — even when the unit subsequently fails to parse
the article's links — and is additionally returned as the unit's pending
redirect, which the round's end uses only to normalize the processed layer.
Membership checks of units running later in the round therefore read the
live table, not a frozen round-start snapshot. -/
theorem c1_redirect_committed_immediately
    (fetch : String → Except ClientError Article) (link : String)
    (tl : Finset String) (krs : List (String × String))
    (prev : List (Finset String)) (article : Article)
    (hf : fetch link = .ok article) (hne : article.endpoint ≠ link) :
    (store_article_links fetch link tl krs prev).2.1 =
      redirectInsert krs link article.endpoint ∧
    (∀ links, article.links = .ok links →
      (store_article_links fetch link tl krs prev).2.2 =
        .ok (some (link, article.endpoint))) ∧
    (∀ e, article.links = .error e →
      (store_article_links fetch link tl krs prev).2.2 =
        .error (.ArticleError e)) := by
  have hne' : ¬(link = article.endpoint) := fun h => hne h.symm
  refine ⟨?_, ?_, ?_⟩
  · cases hl : article.links with
    | error e => simp only [store_article_links, hf, hl]; try simp [hne']
    | ok links => simp only [store_article_links, hf, hl]; try simp [hne']
  · intro links hl
    simp only [store_article_links, hf, hl]
    try simp [hne']
  · intro e hl
    simp only [store_article_links, hf, hl]
    try simp [hne']

/-- Claim C1, witness: the amended theorem applied to the concrete world
`fetchC1`, where fetching `A` yields canonical endpoint `Z`. -/
theorem c1_redirect_committed_immediately_witness :
    (store_article_links fetchC1 "A" ∅ [] sC1.layers).2.1 =
      redirectInsert [] "A" "Z" ∧
    (store_article_links fetchC1 "A" ∅ [] sC1.layers).2.2 = .ok (some ("A", "Z")) := by
  have h := c1_redirect_committed_immediately fetchC1 "A" ∅ [] sC1.layers
    ⟨"Z", .ok []⟩ (by decide) (by decide)
  exact ⟨h.1, h.2.1 [] rfl⟩

/-- Claim C2: `compute_layers_async n` started from a calculator holding one
layer yields exactly `n + 1` layers on success; on any terminal failure the
failing round appends nothing — the final layer sequence is exactly the one
committed by the `k < n` fully successful rounds before it, holding
`k + 1` layers. -/
theorem c2_layer_count (fetch : String → Except ClientError Article)
    (orders : Nat → List String) (n : Nat) (s : LinkCalculator)
    (h1 : s.layers.length = 1) :
    (∀ s', compute_layers_async fetch orders n s = (s', none) →
      s'.layers.length = n + 1) ∧
    (∀ s' e, compute_layers_async fetch orders n s = (s', some e) →
      ∃ k t, k < n ∧ compute_layers_async fetch orders k s = (t, none) ∧
        s'.layers = t.layers ∧ t.layers.length = k + 1) := by
  constructor
  · intro s' h
    have := compute_layers_ok_length fetch n orders s s' h
    omega
  · intro s' e h
    obtain ⟨k, t, hk, hrun, hlay⟩ := compute_layers_err fetch n orders s s' e h
    have := compute_layers_ok_length fetch k orders s t hrun
    exact ⟨k, t, hk, hrun, hlay, by omega⟩

/-- Claim C2, witness: one successful round from the one-layer calculator
for origin `O` yields exactly two layers. -/
theorem c2_layer_count_witness :
    (compute_layers_async fetchW ordersW 1 (LinkCalculator.new "O")).1.layers.length = 2 := by
  have h := (c2_layer_count fetchW ordersW 1 (LinkCalculator.new "O") (by decide)).1
  exact h (compute_layers_async fetchW ordersW 1 (LinkCalculator.new "O")).1 (by decide)

/-- Claim C3, counterexample.  The claim states that the canonicalized
endpoint is both tested and, when absent everywhere, inserted into the new
layer.  Concretely: the redirect table maps `O` to `T`, no committed layer
contains `T` (so the membership test — correctly canonicalized — finds
nothing), yet the unit inserts the raw link `O`, not the canonicalized `T`,
into the target layer. -/
theorem c3_raw_insert_counterexample :
    canonical_endpoint krsC3 "O" = "T" ∧
    find_in_previous_layer prevC3 krsC3 "O" = none ∧
    (store_article_links fetchC3 "L" ∅ krsC3 prevC3).1 = {"O"} ∧
    "T" ∉ (store_article_links fetchC3 "L" ∅ krsC3 prevC3).1 := by decide

/-- Claim C3, amended.  For every outbound link `o` of a successfully
fetched and parsed article: the membership test canonicalizes `o` through
the redirect table as the unit sees it after its own redirect write
(`krs2`), and checks the canonicalized endpoint against every committed
layer; when it is absent from all of them, the original link `o` itself —
not its canonicalized form — is inserted into the target layer. -/
theorem c3_canonical_test_raw_insert
    (fetch : String → Except ClientError Article) (link : String)
    (tl : Finset String) (krs krs2 : List (String × String))
    (prev : List (Finset String)) (article : Article) (links : List String)
    (hf : fetch link = .ok article) (hl : article.links = .ok links)
    (hk : krs2 = if link = article.endpoint then krs
          else redirectInsert krs link article.endpoint) :
    ∀ x, x ∈ (store_article_links fetch link tl krs prev).1 ↔
      x ∈ tl ∨ (x ∈ links ∧ ∀ layer ∈ prev, canonical_endpoint krs2 x ∉ layer) := by
  intro x
  simp only [store_article_links, hf, hl]
  rw [← hk]
  rw [mem_foldl_insert_if (fun l => (find_in_previous_layer prev krs2 l).isNone) x links tl]
  rw [Option.isNone_iff_eq_none, find_in_previous_layer_none_iff]

/-- Claim C3, witness: the amended theorem applied to the concrete
canonicalization scenario, at the discovered link `O`. -/
theorem c3_canonical_test_raw_insert_witness :
    ("O" ∈ (store_article_links fetchC3 "L" ∅ krsC3 prevC3).1) ↔
      ("O" ∈ (∅ : Finset String) ∨
        ("O" ∈ ["O"] ∧ ∀ layer ∈ prevC3, canonical_endpoint krsC3 "O" ∉ layer)) := by
  exact c3_canonical_test_raw_insert fetchC3 "L" ∅ krsC3 krsC3 prevC3
    ⟨"L", .ok ["O"]⟩ ["O"] (by decide) rfl (by decide) "O"

/-- Claim C4: evaluation of the code at the failing input.  Starting from
origin `O` (linking to `A` and `B`), with `A` linking to `C` and `B` a
redirect to `C`: after two fully successful rounds, the end-of-round
normalization rewrites layer 1 from `⦃A, B⦄` to `⦃A, C⦄` while layer 2
already contains `C` (admitted because the membership check ran before the
redirect target entered any layer), so `C` is a member of two distinct
layers — and `C` canonicalizes to itself, so the overlap persists after
redirect normalization, contradicting the pairwise-disjointness invariant
the claim states for every completed run. -/
theorem c4_disjointness_violated :
    (compute_layers_async fetchC4 ordersC4 2 (LinkCalculator.new "O")).2 = none ∧
    "C" ∈ ((compute_layers_async fetchC4 ordersC4 2 (LinkCalculator.new "O")).1.layers.getD 1 ∅) ∧
    "C" ∈ ((compute_layers_async fetchC4 ordersC4 2 (LinkCalculator.new "O")).1.layers.getD 2 ∅) ∧
    canonical_endpoint
      (compute_layers_async fetchC4 ordersC4 2 (LinkCalculator.new "O")).1.known_redirects
      "C" = "C" := by decide

/-- Claim C5, counterexample.  The claim states a concurrency cap of 32 on
executing fetches (as the minimum of a work-unit cap and the admission
pool's own cap).  The code has a single cap: `CONNECTION_PERMITS`, created
with 100 permits — `tokio::spawn` imposes no bound of its own — and a trace
of 33 concurrent acquisitions completes against the semaphore, leaving 33
fetches in flight at once. -/
theorem c5_cap32_counterexample :
    CONNECTION_PERMITS = 100 ∧
    sem_exec CONNECTION_PERMITS (List.replicate 33 SemEvent.acquire) = some 67 ∧
    inFlight (List.replicate 33 SemEvent.acquire) = 33 ∧ ¬(33 ≤ 32) := by decide

/-- Claim C5, amended.  Work units are spawned without any separate
admission cap; the only bound is the `CONNECTION_PERMITS` semaphore with
100 permits: along every completed semaphore trace, at every instant (every
prefix of the trace), the number of fetch requests in flight is at most
`CONNECTION_PERMITS`. -/
theorem c5_semaphore_bound (tr pre suf : List SemEvent) (n : Nat)
    (hsplit : tr = pre ++ suf)
    (h : sem_exec CONNECTION_PERMITS tr = some n) :
    inFlight pre ≤ CONNECTION_PERMITS := by
  subst hsplit
  rw [sem_exec_append] at h
  cases hp : sem_exec CONNECTION_PERMITS pre with
  | none => rw [hp] at h; simp at h
  | some m =>
    rw [hp] at h
    have hi := sem_exec_invariant pre CONNECTION_PERMITS m (le_refl _) hp
    have h2 := hi.2
    have h1 := hi.1
    unfold inFlight
    omega

/-- Claim C5, witness: the bound applied to the one-acquire trace. -/
theorem c5_semaphore_bound_witness :
    inFlight [SemEvent.acquire] ≤ CONNECTION_PERMITS :=
  c5_semaphore_bound [SemEvent.acquire] [SemEvent.acquire] [] 99 rfl rfl

/-- Claim C6, counterexample.  The claim states that a persistent transient
failure — a transport error or a non-2xx status other than 404 — is
attempted exactly five times with the backoff signal raised during each
sleep window.  For transport errors that is false: `send().await?`
propagates the converted error out of `get_request` at once, so a remote
whose `send` fails every time produces a single request event, no sleep,
no backoff store, and the transport error as the surfaced result. -/
theorem c6_transport_single_attempt_counterexample :
    get_request pausedNever reqSendFail = (.error (.RequestError 7), [.request]) ∧
    ClientEvent.sleep ∉ (get_request pausedNever reqSendFail).2 ∧
    ClientEvent.setPaused true ∉ (get_request pausedNever reqSendFail).2 := by decide

/-- Claim C6, amended.  With the backoff flag never observed set:
(a) a 404 response on the first attempt is issued exactly once — the trace
holds a single request event — and surfaces immediately as the terminal
`StatusCodeError 404`; (b) a transport error (a failure of `send` itself)
on the first attempt is likewise issued exactly once and propagates
immediately as the terminal converted error, with no backoff and no retry;
(c) only a non-2xx status other than 404 is retried: when every attempt
responds with such a status, exactly `MAX_RETRIES = 5` requests are issued,
the fifth attempt's status error surfaces as the terminal result, and each
of the five sleep windows is entered with the shared backoff flag set to
`true` and left with it cleared to `false`. -/
theorem c6_retry_policy (pausedObs : Nat → Bool) (req : Nat → ReqOutcome)
    (code : Nat → Nat) (hp : ∀ i, pausedObs i = false) :
    (req 0 = .statusErr 404 →
      get_request pausedObs req = (.error (.StatusCodeError 404), [.request])) ∧
    (∀ e, req 0 = .sendErr e →
      get_request pausedObs req = (.error (ClientError.fromReqwest e), [.request])) ∧
    ((∀ i, req i = .statusErr (code i)) → (∀ i, code i ≠ 404) →
      get_request pausedObs req = (.error (.StatusCodeError (code 4)),
        [.request, .setPaused true, .sleep, .setPaused false,
         .request, .setPaused true, .sleep, .setPaused false,
         .request, .setPaused true, .sleep, .setPaused false,
         .request, .setPaused true, .sleep, .setPaused false,
         .request, .setPaused true, .sleep, .setPaused false])) := by
  have hr5 : List.range MAX_RETRIES = [0, 1, 2, 3, 4] := rfl
  refine ⟨?_, ?_, ?_⟩
  · intro h404
    simp [get_request, hr5, get_request_go, hp, h404]
  · intro e hsend
    simp [get_request, hr5, get_request_go, hp, hsend]
  · intro hreq hnf
    simp [get_request, hr5, get_request_go, hp, hreq, hnf]

/-- Claim C6, witness: the amended policy at a remote answering 404, at a
remote whose `send` fails with a transport error, and at a remote answering
every attempt with the distinct non-2xx status `500 + i`. -/
theorem c6_retry_policy_witness :
    get_request pausedNever req404 = (.error (.StatusCodeError 404), [.request]) ∧
    get_request pausedNever reqSendFail = (.error (.RequestError 7), [.request]) ∧
    get_request pausedNever reqStatus = (.error (.StatusCodeError 504),
      [.request, .setPaused true, .sleep, .setPaused false,
       .request, .setPaused true, .sleep, .setPaused false,
       .request, .setPaused true, .sleep, .setPaused false,
       .request, .setPaused true, .sleep, .setPaused false,
       .request, .setPaused true, .sleep, .setPaused false]) := by
  refine ⟨(c6_retry_policy pausedNever req404 (fun _ => 404)
      (fun _ => rfl)).1 rfl, ?_, ?_⟩
  · exact (c6_retry_policy pausedNever reqSendFail (fun _ => 0)
      (fun _ => rfl)).2.1 ⟨none, 7⟩ rfl
  · exact (c6_retry_policy pausedNever reqStatus (fun i => 500 + i)
      (fun _ => rfl)).2.2 (fun _ => rfl) (fun _ => by omega)

/-- Claim C7: evaluation of the code at the failing input.  On the input
holding a percent escape whose accumulated buffer is the four-byte
character U+1D11E, `hex_string_to_unicode` slices the buffer's byte string
at offset 2 — not a character boundary — which in Rust panics; the model
returns `none` (a panic) instead of any `DecodeError`, refuting totality on
inputs whose percent-run buffer contains multi-byte characters. -/
theorem c7_decode_panics_on_multibyte : decode_url_str "%𝄞" = none := rfl

/-- Claim C8: the codec reference behaviour.  An underscore decodes to a
space; a valid two-hex-digit escape decodes to its UTF-8 byte; an input
ending mid-run with an odd number of buffered hex characters yields the
incomplete-parse error; a non-hexadecimal pair yields the hex-value error;
decoded bytes that are invalid UTF-8 yield the UTF-8 error; and end of
input in `ParseReady` flushes the buffered run through the same byte and
UTF-8 decode — including a two-escape multi-byte sequence. -/
theorem c8_codec_reference :
    decode_url_str "_" = some (.ok " ") ∧
    decode_url_str "%41" = some (.ok "A") ∧
    decode_url_str "%4" = some (.error .IncompleteParse) ∧
    decode_url_str "%g1" = some (.error .HexNotValidByte) ∧
    decode_url_str "%ff" = some (.error .ByteVecNotUtf8) ∧
    decode_url_str "%C3%A9" = some (.ok "é") :=
  ⟨rfl, rfl, rfl, rfl, rfl, rfl⟩

/-- Claim C9, counterexample.  The claim states that each redirect line
decodes both endpoints before printing.  Decoding would turn `A_B` into
`A B` and `C_D` into `C D`, but the rendered redirect section differs from
the spec-described decoded rendering: the code prints the raw pair. -/
theorem c9_decoded_counterexample :
    decode_display "A_B" = "A B".toList ∧
    decode_display "C_D" = "C D".toList ∧
    render_known_redirects krsC9 ≠ render_known_redirects_spec krsC9 := by decide

/-- Claim C9, amended.  The rendered redirect section presents the table as
raw `source -> target` pairs: for every table, the output is the header
followed, per entry, by a tab, the undecoded source, an arrow, and the
undecoded target — no endpoint decoding is applied to redirect lines. -/
theorem c9_redirect_lines_raw (krs : List (String × String)) :
    render_known_redirects krs = redirect_header krs.length ++
      (krs.map (fun p => '\t' :: p.1.toList ++ " -> ".toList ++ p.2.toList ++ ['\n'])).flatten := by
  unfold render_known_redirects
  have h := foldl_append_flatten redirect_line krs (redirect_header krs.length)
  rw [h]
  rfl

/-- Claim C10: an iteration observing the backoff flag set sleeps without
issuing a request yet consumes one of the `MAX_RETRIES = 5` attempts; with
the flag observed set at every check, `get_request` terminates after five
sleep cycles with the terminal `PausedOnOtherThread` failure and its event
trace holds no request at all. -/
theorem c10_paused_attempts (pausedObs : Nat → Bool) (req : Nat → ReqOutcome)
    (hp : ∀ i, pausedObs i = true) :
    get_request pausedObs req =
      (.error .PausedOnOtherThread, List.replicate MAX_RETRIES .sleep) ∧
    ClientEvent.request ∉ (get_request pausedObs req).2 := by
  have hr5 : List.range MAX_RETRIES = [0, 1, 2, 3, 4] := rfl
  have h1 : get_request pausedObs req =
      (.error .PausedOnOtherThread, List.replicate MAX_RETRIES .sleep) := by
    simp [get_request, hr5, get_request_go, hp, MAX_RETRIES]
  refine ⟨h1, ?_⟩
  rw [h1]
  simp [List.mem_replicate]

/-- Claim C10, witness: the always-paused flag against the failing-status
remote yields five sleeps, no request, and the paused-on-other-thread
failure. -/
theorem c10_paused_attempts_witness :
    get_request pausedAlways reqStatus =
      (.error .PausedOnOtherThread, [.sleep, .sleep, .sleep, .sleep, .sleep]) :=
  (c10_paused_attempts pausedAlways reqStatus (fun _ => rfl)).1

end WikiUtils
